import Mathlib

/-
Shallow embedding of the Rolloutly SDK core client
(packages/core/src/client.ts) together with proofs about its
flag-resolution, flat-value-view, lifecycle and notification behaviour.

JS objects used as string-keyed maps are embedded as association lists
(`List (String × _)`) whose order is the object's insertion order; object
property assignment on the derived flat value view is embedded as function
update, since only lookups (not iteration) are performed on that view.
Object identity of the flat value view is embedded by an allocation
counter (`cacheRef`/`nextRef`): every evaluation of the cache-rebuilding
reduce allocates a fresh object, so it bumps the counter.
-/

namespace Rolloutly

/-- Values a feature flag can carry (`FlagValue` in types.ts:
boolean | string | number | Record<string, unknown>). -/
inductive FlagValue where
  | bool (b : Bool)
  | str (s : String)
  | num (n : Int)
  | json (fields : List (String × String))
  deriving DecidableEq, Repr

/-- The flag `type` discriminant ('boolean' | 'string' | 'number' | 'json'). -/
inductive FlagType where
  | boolean
  | string
  | number
  | json
  deriving DecidableEq, Repr

/-- Flag data structure from the API / realtime DB (types.ts `Flag`). -/
structure Flag where
  key : String
  enabled : Bool
  value : FlagValue
  type : FlagType
  deriving DecidableEq, Repr

/-- `FlagMap = Record<string, Flag>`: association list in insertion order. -/
abbrev FlagMap := List (String × Flag)

/-- A user-context attribute value (string | number | boolean | string[]). -/
inductive AttrValue where
  | str (s : String)
  | num (n : Int)
  | bool (b : Bool)
  | strList (l : List String)
  deriving DecidableEq, Repr

/-- `UserContext`: attribute name → attribute value, as an object. -/
abbrev UserContext := List (String × AttrValue)

/-- Client status (types.ts `ClientStatus`). -/
inductive ClientStatus where
  | initializing
  | ready
  | error
  deriving DecidableEq, Repr

/-- Parsed token data (types.ts `ParsedToken`). -/
structure ParsedToken where
  projectId : String
  environmentKey : String
  deriving DecidableEq, Repr

/-- JavaScript truthiness (`Boolean(v)`) of a flag value.  Objects are
always truthy; the empty string and zero are falsy. -/
def jsTruthy : FlagValue → Bool
  | .bool b => b
  | .str s => !s.isEmpty
  | .num n => n != 0
  | .json _ => true

/-- `Boolean(v)` where `v` may be `undefined` (absent table entry). -/
def jsTruthyOpt : Option FlagValue → Bool
  | none => false
  | some v => jsTruthy v

/-- Property read `m[k]` on an object embedded as an association list. -/
def objGet (m : List (String × Flag)) (k : String) : Option Flag :=
  (m.find? (fun p => p.1 == k)).map (·.2)

/-- The characters the camel-case regex `[-_]` matches. -/
def isSeparator (c : Char) : Bool :=
  c == '-' || c == '_'

/-- JS line terminators, which the regex metacharacter `.` does not match. -/
def isLineTerminator (c : Char) : Bool :=
  c == '\n' || c == '\r' || c.toNat == 0x2028 || c.toNat == 0x2029

/-- Character-level engine of `str.replace(/[-_](.)/g, (_, c) => c.toUpperCase())`:
left-to-right, non-overlapping; a separator not followed by a `.`-matchable
character is left in place. -/
def camelChars : List Char → List Char
  | [] => []
  | [c] => [c]
  | c :: d :: rest =>
    if isSeparator c then
      if isLineTerminator d then c :: camelChars (d :: rest)
      else d.toUpper :: camelChars rest
    else c :: camelChars (d :: rest)

/-- `toCamelCase` (client.ts): 'instagram-integration' -> 'instagramIntegration'. -/
def toCamelCase (s : String) : String :=
  String.mk (camelChars s.data)

/-- `needsCamelCase` (client.ts): the key contains a hyphen or an underscore. -/
def needsCamelCase (key : String) : Bool :=
  key.data.contains '-' || key.data.contains '_'

/-- `findOriginalKey` (client.ts): if the key is present directly, `null`;
otherwise the first stored key whose camel-case form matches. -/
def findOriginalKey (flags : FlagMap) (camelKey : String) : Option String :=
  if (objGet flags camelKey).isSome then none
  else (flags.map (·.1)).find? (fun k => needsCamelCase k && toCamelCase k == camelKey)

/-- `getFlag` (client.ts): direct lookup, then camel-case fallback; an
enabled flag yields its value, otherwise the `defaultFlags` entry under
the resolved key (`findOriginalKey(key) || key`). -/
def getFlag (flags : FlagMap) (defaults : String → Option FlagValue)
    (key : String) : Option FlagValue :=
  let directFlag := objGet flags key
  let flag :=
    match directFlag with
    | some f => some f
    | none =>
      match findOriginalKey flags key with
      | some originalKey => objGet flags originalKey
      | none => none
  match flag with
  | some f =>
    let defaultKey := (findOriginalKey flags key).getD key
    if f.enabled then some f.value else defaults defaultKey
  | none => defaults key

/-- `isEnabled` (client.ts): same lookup as `getFlag` but tracking the
`lookupKey` used for the default-table fallback; an enabled boolean flag
yields `Boolean(value)`, an enabled non-boolean flag yields `true`. -/
def isEnabled (flags : FlagMap) (defaults : String → Option FlagValue)
    (key : String) : Bool :=
  let directFlag := objGet flags key
  let found : Option Flag × String :=
    match directFlag with
    | some f => (some f, key)
    | none =>
      match findOriginalKey flags key with
      | some originalKey => (objGet flags originalKey, originalKey)
      | none => (none, key)
  match found with
  | (none, lookupKey) => jsTruthyOpt (defaults lookupKey)
  | (some f, lookupKey) =>
    if !f.enabled then jsTruthyOpt (defaults lookupKey)
    else if f.type == FlagType.boolean then jsTruthy f.value else true

/-- Property assignment `acc[k] = v` on the flat value view. -/
def objAssign (acc : String → Option FlagValue) (k : String) (v : FlagValue) :
    String → Option FlagValue :=
  fun j => if j = k then some v else acc j

/-- One step of the `updateFlagValuesCache` reduce: write the original key,
and additionally the camel-case key when the key needs conversion. -/
def cacheWrite (acc : String → Option FlagValue) (p : String × Flag) :
    String → Option FlagValue :=
  let acc1 := objAssign acc p.1 p.2.value
  if needsCamelCase p.1 then objAssign acc1 (toCamelCase p.1) p.2.value else acc1

/-- `updateFlagValuesCache` (client.ts): rebuild the flat value view from
the flag snapshot.  Every entry writes its value, enabled or not. -/
def updateFlagValuesCache (flags : FlagMap) : String → Option FlagValue :=
  flags.foldl cacheWrite (fun _ => none)

/-- JS `token.split('_')` (single-character separator, no limit). -/
def jsSplitAux (sep : Char) : List Char → List Char → List String
  | [], acc => [String.mk acc.reverse]
  | c :: rest, acc =>
    if c = sep then String.mk acc.reverse :: jsSplitAux sep rest []
    else jsSplitAux sep rest (c :: acc)

/-- JS `s.split(sep)` for a single-character separator. -/
def jsSplit (s : String) (sep : Char) : List String :=
  jsSplitAux sep s.data []

/-- `parseToken` (client.ts): format `rly_{projectId}_{environmentKey}_{rest}`;
fewer than 4 segments or a wrong tag yields `null`. -/
def parseToken (token : String) : Option ParsedToken :=
  let parts := jsSplit token '_'
  if h : 4 ≤ parts.length ∧ parts.head? = some "rly" then
    some ⟨parts.get ⟨1, by omega⟩, parts.get ⟨2, by omega⟩⟩
  else none

/-- Configuration handed to the constructor (types.ts `RolloutlyConfig`,
after the constructor applies its defaults). -/
structure RolloutlyConfig where
  token : String
  realtimeEnabled : Bool
  defaultFlags : String → Option FlagValue
  user : Option UserContext

/-- The mutable state of a `RolloutlyClient` instance.  `cacheRef` is the
allocation id of the current `flagValuesCache` object and `nextRef` the
next unused id; rebuilding the cache allocates a fresh object. -/
structure ClientState where
  token : String
  defaultFlags : String → Option FlagValue
  realtimeEnabled : Bool
  user : Option UserContext
  flags : FlagMap
  flagValuesCache : String → Option FlagValue
  cacheRef : Nat
  nextRef : Nat
  status : ClientStatus
  error : Option String
  listeners : List Nat
  realtimeActive : Bool
  parsedToken : ParsedToken

/-- Settlements of the one-shot initialization promise. -/
inductive InitSignal where
  | resolve
  | reject (msg : String)
  deriving DecidableEq, Repr

/-- Result of running one client operation: the post state, the listeners
invoked (in order), the settlements of the init promise it performed, and
the operation's own completion (`.error` = the promise it returned
rejected / the call threw). -/
structure StepOut where
  state : ClientState
  invoked : List Nat
  signals : List InitSignal
  result : Except String Unit

/-- `this.config.user && Object.keys(this.config.user).length > 0`. -/
def hasUserContext (user : Option UserContext) : Bool :=
  match user with
  | none => false
  | some u => decide (0 < u.length)

/-- Body of private `updateFlagValuesCache`: a fresh flat-view object is
built from the current snapshot. -/
def updateCacheStep (s : ClientState) : ClientState :=
  { s with
      flagValuesCache := updateFlagValuesCache s.flags
      cacheRef := s.nextRef
      nextRef := s.nextRef + 1 }

/-- Private `notifyListeners`: rebuild the cache, then call every current
listener (Set iteration = insertion order, each once). -/
def notifyListenersStep (s : ClientState) : ClientState × List Nat :=
  (updateCacheStep s, s.listeners)

/-- Private `fetchFlags`, with the transport outcome as a parameter: a
non-ok / failed request throws without touching any state; a successful
one replaces the snapshot, persists it best-effort, and notifies. -/
def fetchFlagsStep (s : ClientState) (response : Except String FlagMap) : StepOut :=
  match response with
  | .error e => ⟨s, [], [], .error e⟩
  | .ok newFlags =>
    let s1 := { s with flags := newFlags }
    let (s2, invoked) := notifyListenersStep s1
    ⟨s2, invoked, [], .ok ()⟩

/-- `identify(user)`: store the new user context then re-fetch. -/
def identifyStep (s : ClientState) (user : UserContext)
    (response : Except String FlagMap) : StepOut :=
  fetchFlagsStep { s with user := some user } response

/-- `reset()`: clear the user context then re-fetch. -/
def resetStep (s : ClientState) (response : Except String FlagMap) : StepOut :=
  fetchFlagsStep { s with user := none } response

/-- Private `setupRealtime`, parameterised by the (best-effort) channel
address lookup: with no address the feature is silently skipped. -/
def setupRealtimeStep (s : ClientState) (channelAddress : Option String) : ClientState :=
  match channelAddress with
  | none => s
  | some _ => { s with realtimeActive := true }

/-- Private `initialize`: first fetch, then realtime setup when enabled,
then `status = ready` and resolve; on a throw, `status = error`, record
the error and reject.  Exactly one init signal is emitted either way. -/
def initializeStep (s : ClientState) (response : Except String FlagMap)
    (channelAddress : Option String) : StepOut :=
  match fetchFlagsStep s response with
  | ⟨s1, invoked, _, .ok _⟩ =>
    let s2 := if s1.realtimeEnabled then setupRealtimeStep s1 channelAddress else s1
    ⟨{ s2 with status := .ready }, invoked, [InitSignal.resolve], .ok ()⟩
  | ⟨s1, invoked, _, .error e⟩ =>
    ⟨{ s1 with status := .error, error := some e }, invoked, [InitSignal.reject e], .ok ()⟩

/-- The constructor (synchronous part): parse the token and either throw
`Invalid SDK token format` — before any asynchronous work can start — or
produce the initial state awaiting its first fetch. -/
def mkClient (config : RolloutlyConfig) : Except String ClientState :=
  match parseToken config.token with
  | none => .error "Invalid SDK token format"
  | some parsed =>
    .ok
      { token := config.token
        defaultFlags := config.defaultFlags
        realtimeEnabled := config.realtimeEnabled
        user := config.user
        flags := []
        flagValuesCache := fun _ => none
        cacheRef := 0
        nextRef := 1
        status := .initializing
        error := none
        listeners := []
        realtimeActive := false
        parsedToken := parsed }

/-- What the realtime `onValue` handler decided to do with an event. -/
inductive RealtimeAction where
  | noData
  | refetch (ctx : UserContext)
  | adopt
  deriving DecidableEq, Repr

/-- The `onValue` callback installed by `setupRealtime`: a null payload is
ignored; with an active user context the payload only triggers a re-fetch
(with that context); otherwise the pushed mapping is adopted directly as
the snapshot, each entry tagged with its map key, and listeners notified. -/
def handleRealtimeEvent (s : ClientState) (data : Option (List (String × Flag))) :
    ClientState × List Nat × RealtimeAction :=
  match data with
  | none => (s, [], .noData)
  | some raw =>
    if hasUserContext s.user then
      (s, [], .refetch (s.user.getD []))
    else
      let newFlags : FlagMap := raw.map (fun p => (p.1, { p.2 with key := p.1 }))
      let (s2, invoked) := notifyListenersStep { s with flags := newFlags }
      (s2, invoked, .adopt)

/-- `subscribe(listener)`: add to the listener set (no-op when present). -/
def subscribeStep (s : ClientState) (l : Nat) : ClientState :=
  if s.listeners.contains l then s else { s with listeners := s.listeners ++ [l] }

/-- `close()`: tear down the realtime subscription and clear the listener
set; nothing else is touched. -/
def closeStep (s : ClientState) : ClientState :=
  { s with realtimeActive := false, listeners := [] }

/-- `getFlag` as seen on a client state. -/
def getFlagOf (s : ClientState) (key : String) : Option FlagValue :=
  getFlag s.flags s.defaultFlags key

/-- `isEnabled` as seen on a client state. -/
def isEnabledOf (s : ClientState) (key : String) : Bool :=
  isEnabled s.flags s.defaultFlags key

/-- `getFlags()` returns a spread copy of the snapshot (same contents). -/
def getFlagsOf (s : ClientState) : FlagMap :=
  s.flags

/-- `getFlagValues()` returns the cached flat-view object itself. -/
def getFlagValuesOf (s : ClientState) : String → Option FlagValue :=
  s.flagValuesCache

/-- `getStatus()`. -/
def getStatusOf (s : ClientState) : ClientStatus :=
  s.status

/-- `getError()` (`null` embedded as `none`; the error by its message). -/
def getErrorOf (s : ClientState) : Option String :=
  s.error

/-- `getUser()`. -/
def getUserOf (s : ClientState) : Option UserContext :=
  s.user

/-- Stated from the spec's words (§4.2): the lookup key itself when it is
a canonical key present in the snapshot, otherwise the first snapshot key
whose alternate form equals the lookup key. -/
def resolveCanonicalKeySpec (lookupKey : String) (flags : FlagMap) : Option String :=
  if (objGet flags lookupKey).isSome then some lookupKey
  else (flags.map (·.1)).find? (fun k => toCamelCase k == lookupKey)

/-- Stated from the spec's words (§4.6 `get`): resolve the canonical key,
return the value when found and enabled, the default-table entry under the
resolved canonical key when found but disabled, and the default-table
entry under the original lookup key when nothing resolves. -/
def getFlagSpec (flags : FlagMap) (defaults : String → Option FlagValue)
    (key : String) : Option FlagValue :=
  match resolveCanonicalKeySpec key flags with
  | some canonical =>
    match objGet flags canonical with
    | some f => if f.enabled then some f.value else defaults canonical
    | none => defaults canonical
  | none => defaults key

/-- Stated from the spec's words (§4.6 `isEnabled`): same resolution; the
boolean-coerced default when absent or disabled, `true` for an enabled
non-boolean flag, the boolean-coerced value for an enabled boolean flag. -/
def isEnabledSpec (flags : FlagMap) (defaults : String → Option FlagValue)
    (key : String) : Bool :=
  match resolveCanonicalKeySpec key flags with
  | some canonical =>
    match objGet flags canonical with
    | some f =>
      if !f.enabled then jsTruthyOpt (defaults canonical)
      else if f.type == FlagType.boolean then jsTruthy f.value else true
    | none => jsTruthyOpt (defaults canonical)
  | none => jsTruthyOpt (defaults key)

/-- Whether the cache-rebuilding reduce step for entry `p` writes to the
flat-view property `j` (either as the original or as the camel-case key). -/
def writesKey (p : String × Flag) (j : String) : Bool :=
  j == p.1 || (needsCamelCase p.1 && j == toCamelCase p.1)

/-- A concrete post-initialization state used by witnesses: no user
context, two subscribed listeners, live cache object id 3 of 7. -/
def baseState : ClientState :=
  { token := "rly_p1_prod_abc"
    defaultFlags := fun _ => none
    realtimeEnabled := true
    user := none
    flags := []
    flagValuesCache := fun _ => none
    cacheRef := 3
    nextRef := 7
    status := .ready
    error := none
    listeners := [5, 9]
    realtimeActive := true
    parsedToken := ⟨"p1", "prod"⟩ }

/-- `baseState` with a non-empty user context (personalization active). -/
def userState : ClientState :=
  { baseState with user := some [("plan", AttrValue.str "pro")] }

lemma camelChars_of_no_sep :
    ∀ l : List Char, (∀ c ∈ l, isSeparator c = false) → camelChars l = l
  | [], _ => rfl
  | [c], _ => rfl
  | c :: d :: rest, h => by
    have hc : isSeparator c = false := h c (List.mem_cons_self c _)
    have htail : ∀ x ∈ d :: rest, isSeparator x = false :=
      fun x hx => h x (List.mem_cons_of_mem c hx)
    rw [camelChars, hc]
    simp only [Bool.false_eq_true, if_false]
    rw [camelChars_of_no_sep (d :: rest) htail]

/-- A key without separators is its own camel-case form. -/
lemma toCamelCase_of_not_needs {k : String} (h : needsCamelCase k = false) :
    toCamelCase k = k := by
  have hsep : ∀ c ∈ k.data, isSeparator c = false := by
    intro c hc
    simp only [needsCamelCase, Bool.or_eq_false_iff] at h
    have h1 : ¬ ('-' ∈ k.data) := by
      intro hm
      have hcontains : k.data.contains '-' = true := List.elem_iff.2 hm
      rw [h.1] at hcontains
      exact Bool.false_ne_true hcontains
    have h2 : ¬ ('_' ∈ k.data) := by
      intro hm
      have hcontains : k.data.contains '_' = true := List.elem_iff.2 hm
      rw [h.2] at hcontains
      exact Bool.false_ne_true hcontains
    simp only [isSeparator, Bool.or_eq_false_iff, beq_eq_false_iff_ne, ne_eq]
    exact ⟨fun e => h1 (e ▸ hc), fun e => h2 (e ▸ hc)⟩
  show String.mk (camelChars k.data) = k
  rw [camelChars_of_no_sep k.data hsep]

lemma objGet_eq_none_iff {l : FlagMap} {k : String} :
    objGet l k = none ↔ ∀ p ∈ l, p.1 ≠ k := by
  simp [objGet, Option.map_eq_none', List.find?_eq_none]

lemma objGet_isSome_of_mem {l : FlagMap} {k : String} (h : k ∈ l.map (·.1)) :
    (objGet l k).isSome = true := by
  obtain ⟨p, hp, hk⟩ := List.mem_map.1 h
  rw [objGet, Option.isSome_map']
  exact List.find?_isSome.2 ⟨p, hp, by simp [hk]⟩

lemma keys_find?_camel_agree :
    ∀ (keys : List String) (key : String), key ∉ keys →
      keys.find? (fun k => needsCamelCase k && toCamelCase k == key)
        = keys.find? (fun k => toCamelCase k == key)
  | [], _, _ => rfl
  | a :: l, key, h => by
    have ha : a ≠ key := fun e => h (e ▸ List.mem_cons_self a l)
    have htail : key ∉ l := fun hm => h (List.mem_cons_of_mem a hm)
    have ih := keys_find?_camel_agree l key htail
    by_cases hs : needsCamelCase a = true
    · cases hc : (toCamelCase a == key) with
      | true => simp [List.find?_cons, hs, hc]
      | false => simp [List.find?_cons, hs, hc, ih]
    · have hs' : needsCamelCase a = false := by simpa using hs
      have hc : (toCamelCase a == key) = false := by
        rw [toCamelCase_of_not_needs hs']
        exact beq_eq_false_iff_ne.2 ha
      simp [List.find?_cons, hs', hc, ih]

/-- When the direct lookup misses, the code's guarded scan
(`needsCamelCase k && toCamelCase k == key`) and the spec's unguarded scan
(`toCamelCase k == key`) find the same key. -/
lemma findOriginalKey_eq_scan {flags : FlagMap} {key : String}
    (h : objGet flags key = none) :
    findOriginalKey flags key
      = (flags.map (·.1)).find? (fun k => toCamelCase k == key) := by
  have hnot : key ∉ flags.map (·.1) := by
    intro hmem
    have hs := objGet_isSome_of_mem hmem
    rw [h] at hs
    simp at hs
  rw [findOriginalKey, h]
  simp only [Option.isSome_none, Bool.false_eq_true, if_false]
  exact keys_find?_camel_agree _ _ hnot

/-- C3: for every snapshot, default table and lookup key, `getFlag`
behaves exactly as specified: it resolves the canonical key (the key
itself when present, else the first snapshot key whose alternate form
equals the lookup key); an enabled match yields the flag's value, a
disabled match or a miss yields the default-table entry under the
resolved canonical key, falling back to the original lookup key when
nothing resolves (`undefined` when the table also lacks it). -/
theorem getFlag_matches_spec (flags : FlagMap)
    (defaults : String → Option FlagValue) (key : String) :
    getFlag flags defaults key = getFlagSpec flags defaults key := by
  simp only [getFlag, getFlagSpec, resolveCanonicalKeySpec]
  cases hd : objGet flags key with
  | some f =>
    have hfo : findOriginalKey flags key = none := by
      rw [findOriginalKey, hd]
      simp
    simp [hd, hfo]
  | none =>
    rw [findOriginalKey_eq_scan hd]
    cases hscan : (flags.map (·.1)).find? (fun k => toCamelCase k == key) with
    | none => simp [hd, hscan]
    | some ok =>
      have hmem : ok ∈ flags.map (·.1) := List.mem_of_find?_eq_some hscan
      obtain ⟨f0, hf0⟩ := Option.isSome_iff_exists.1 (objGet_isSome_of_mem hmem)
      simp [hd, hscan, hf0]

/-- C4: for every snapshot, default table and lookup key, `isEnabled`
performs the same canonical-key resolution as `getFlag`; with no flag
found, or a disabled one, it boolean-coerces the default-table entry
under the resolved-or-original key; with an enabled flag it returns
`true` for non-boolean types and the boolean-coerced value for boolean
ones. -/
theorem isEnabled_matches_spec (flags : FlagMap)
    (defaults : String → Option FlagValue) (key : String) :
    isEnabled flags defaults key = isEnabledSpec flags defaults key := by
  simp only [isEnabled, isEnabledSpec, resolveCanonicalKeySpec]
  cases hd : objGet flags key with
  | some f =>
    have hfo : findOriginalKey flags key = none := by
      rw [findOriginalKey, hd]
      simp
    simp [hd, hfo]
  | none =>
    rw [findOriginalKey_eq_scan hd]
    cases hscan : (flags.map (·.1)).find? (fun k => toCamelCase k == key) with
    | none => simp [hd, hscan]
    | some ok =>
      have hmem : ok ∈ flags.map (·.1) := List.mem_of_find?_eq_some hscan
      obtain ⟨f0, hf0⟩ := Option.isSome_iff_exists.1 (objGet_isSome_of_mem hmem)
      simp [hd, hscan, hf0]

lemma cacheWrite_apply (acc : String → Option FlagValue) (p : String × Flag)
    (j : String) :
    cacheWrite acc p j = if writesKey p j then some p.2.value else acc j := by
  simp only [cacheWrite, writesKey]
  by_cases h2 : needsCamelCase p.1 = true
  · by_cases h3 : j = toCamelCase p.1 <;> by_cases h1 : j = p.1 <;>
      simp [objAssign, h1, h2, h3]
  · have h2' : needsCamelCase p.1 = false := by simpa using h2
    by_cases h1 : j = p.1 <;> simp [objAssign, h1, h2']

/-- The flat view built by the reduce reads, at any property `j`, the
value of the last snapshot entry that writes `j`. -/
lemma foldl_cacheWrite_apply :
    ∀ (l : FlagMap) (acc : String → Option FlagValue) (j : String),
      l.foldl cacheWrite acc j
        = match l.reverse.find? (fun p => writesKey p j) with
          | some p => some p.2.value
          | none => acc j
  | [], _, _ => rfl
  | a :: l, acc, j => by
    rw [List.foldl_cons, foldl_cacheWrite_apply l (cacheWrite acc a) j,
      List.reverse_cons, List.find?_append]
    cases hl : l.reverse.find? (fun p => writesKey p j) with
    | some p => simp [hl]
    | none =>
      simp only [hl, Option.none_or]
      rw [cacheWrite_apply]
      cases hw : writesKey a j <;> simp [List.find?_cons, hw]

lemma updateFlagValuesCache_apply (flags : FlagMap) (j : String) :
    updateFlagValuesCache flags j
      = match flags.reverse.find? (fun p => writesKey p j) with
        | some p => some p.2.value
        | none => none :=
  foldl_cacheWrite_apply flags _ j

lemma find?_eq_of_unique {α : Type} (l : List α) (p : α → Bool) (a : α)
    (ha : a ∈ l) (hpa : p a = true) (huniq : ∀ x ∈ l, p x = true → x = a) :
    l.find? p = some a := by
  induction l with
  | nil => cases ha
  | cons b t ih =>
    cases hb : p b with
    | true =>
      rw [List.find?_cons, hb, huniq b (List.mem_cons_self b t) hb]
    | false =>
      rw [List.find?_cons, hb]
      have hat : a ∈ t := by
        cases List.mem_cons.1 ha with
        | inl h => rw [h, hb] at hpa; cases hpa
        | inr h => exact h
      exact ih hat (fun x hx hpx => huniq x (List.mem_cons_of_mem b hx) hpx)

/-- In a snapshot with pairwise-distinct keys, two entries with the same
key are the same entry. -/
lemma eq_of_mem_of_nodup_keys :
    ∀ {l : FlagMap}, (l.map (·.1)).Nodup →
      ∀ {p q : String × Flag}, p ∈ l → q ∈ l → p.1 = q.1 → p = q := by
  intro l
  induction l with
  | nil => intro _ p q hp; cases hp
  | cons a t ih =>
    intro hnd p q hp hq hfst
    rw [List.map_cons, List.nodup_cons] at hnd
    cases List.mem_cons.1 hp with
    | inl hpa =>
      cases List.mem_cons.1 hq with
      | inl hqa => rw [hpa, hqa]
      | inr hqt =>
        exfalso
        exact hnd.1 (hpa ▸ hfst ▸ List.mem_map_of_mem (·.1) hqt)
    | inr hpt =>
      cases List.mem_cons.1 hq with
      | inl hqa =>
        exfalso
        exact hnd.1 (hqa ▸ hfst ▸ List.mem_map_of_mem (·.1) hpt)
      | inr hqt => exact ih hnd.2 hpt hqt hfst

/-- C1 counterexample: a snapshot holding a single *disabled* flag under
key "x" still produces a flat value view with an entry under "x" (the
raw flag value), refuting the claim that disabled flags contribute no
entry to the flat value view. -/
theorem disabled_flag_in_flat_view_cex :
    (objGet [("x", Flag.mk "x" false (FlagValue.bool true) FlagType.boolean)] "x").map
        Flag.enabled = some false
  ∧ updateFlagValuesCache [("x", Flag.mk "x" false (FlagValue.bool true) FlagType.boolean)]
        "x" = some (FlagValue.bool true) := by
  constructor
  · rfl
  · rfl

/-- C1 amended: every flag of an installed snapshot — enabled or
disabled — contributes an entry to the flat value view under its key,
and under its alternate-form key when the key contains a separator;
the `enabled` field is not consulted when building the view. -/
theorem every_flag_in_flat_view (flags : FlagMap) (k : String) (f : Flag)
    (hmem : (k, f) ∈ flags) :
    (updateFlagValuesCache flags k).isSome = true
  ∧ (needsCamelCase k = true →
      (updateFlagValuesCache flags (toCamelCase k)).isSome = true) := by
  constructor
  · have h1 : (flags.reverse.find? (fun p => writesKey p k)).isSome :=
      List.find?_isSome.2 ⟨(k, f), List.mem_reverse.2 hmem, by simp [writesKey]⟩
    obtain ⟨p, hp⟩ := Option.isSome_iff_exists.1 h1
    rw [updateFlagValuesCache_apply, hp]
    rfl
  · intro hsep
    have h1 : (flags.reverse.find? (fun p => writesKey p (toCamelCase k))).isSome :=
      List.find?_isSome.2 ⟨(k, f), List.mem_reverse.2 hmem, by simp [writesKey, hsep]⟩
    obtain ⟨p, hp⟩ := Option.isSome_iff_exists.1 h1
    rw [updateFlagValuesCache_apply, hp]
    rfl

/-- C1 amended, witnessed at a disabled separator-carrying flag. -/
theorem every_flag_in_flat_view_witness :
    (updateFlagValuesCache
        [("a-b", Flag.mk "a-b" false (FlagValue.num 3) FlagType.number)] "a-b").isSome = true
  ∧ (needsCamelCase "a-b" = true →
      (updateFlagValuesCache
        [("a-b", Flag.mk "a-b" false (FlagValue.num 3) FlagType.number)]
        (toCamelCase "a-b")).isSome = true) :=
  every_flag_in_flat_view _ "a-b" (Flag.mk "a-b" false (FlagValue.num 3) FlagType.number)
    (by decide)

/-- C8 counterexample: with snapshot keys "a-b" (value 1) and "aB"
(value 2), the later direct entry "aB" overwrites the synthesized
alternate-form entry of "a-b", so the flat view disagrees between
`toCamelCase "a-b" = "aB"` and "a-b". -/
theorem flat_view_camel_alias_cex :
    needsCamelCase "a-b" = true
  ∧ updateFlagValuesCache
      [("a-b", Flag.mk "a-b" true (FlagValue.num 1) FlagType.number),
        ("aB", Flag.mk "aB" true (FlagValue.num 2) FlagType.number)] (toCamelCase "a-b")
    ≠ updateFlagValuesCache
      [("a-b", Flag.mk "a-b" true (FlagValue.num 1) FlagType.number),
        ("aB", Flag.mk "aB" true (FlagValue.num 2) FlagType.number)] "a-b" := by
  constructor
  · rfl
  · decide

/-- C8 amended: for a canonical key `k` containing a separator, the flat
view's alternate-form entry equals its canonical entry (both being the
flag's value) provided no other snapshot key collides with `k`: no other
key has the same alternate form, no other key's alternate form equals
`k`, and no other key equals `k`'s alternate form (snapshot keys being
pairwise distinct, as for every JS object). -/
theorem flat_view_camel_alias (flags : FlagMap) (k : String) (f : Flag)
    (hmem : (k, f) ∈ flags)
    (hsep : needsCamelCase k = true)
    (hnd : (flags.map (·.1)).Nodup)
    (hnocol : ∀ p ∈ flags, p.1 ≠ k →
        toCamelCase p.1 ≠ toCamelCase k ∧ toCamelCase p.1 ≠ k ∧ p.1 ≠ toCamelCase k) :
    updateFlagValuesCache flags (toCamelCase k) = updateFlagValuesCache flags k
  ∧ updateFlagValuesCache flags k = some f.value := by
  have humem := List.mem_reverse.2 hmem
  have hk : flags.reverse.find? (fun p => writesKey p k) = some (k, f) := by
    apply find?_eq_of_unique _ _ _ humem (by simp [writesKey])
    intro x hx hpx
    have hxf : x ∈ flags := List.mem_reverse.1 hx
    by_cases hx1 : x.1 = k
    · exact eq_of_mem_of_nodup_keys hnd hxf hmem hx1
    · exfalso
      obtain ⟨hc1, hc2, hc3⟩ := hnocol x hxf hx1
      simp [writesKey] at hpx
      rcases hpx with h | ⟨_, h⟩
      · exact hx1 h.symm
      · exact hc2 h.symm
  have hck : flags.reverse.find? (fun p => writesKey p (toCamelCase k)) = some (k, f) := by
    apply find?_eq_of_unique _ _ _ humem (by simp [writesKey, hsep])
    intro x hx hpx
    have hxf : x ∈ flags := List.mem_reverse.1 hx
    by_cases hx1 : x.1 = k
    · exact eq_of_mem_of_nodup_keys hnd hxf hmem hx1
    · exfalso
      obtain ⟨hc1, hc2, hc3⟩ := hnocol x hxf hx1
      simp [writesKey] at hpx
      rcases hpx with h | ⟨_, h⟩
      · exact hc3 h.symm
      · exact hc1 h.symm
  constructor
  · rw [updateFlagValuesCache_apply, updateFlagValuesCache_apply, hk, hck]
  · rw [updateFlagValuesCache_apply, hk]

/-- C8 amended, witnessed at a collision-free snapshot. -/
theorem flat_view_camel_alias_witness :
    updateFlagValuesCache
        [("a-b", Flag.mk "a-b" true (FlagValue.num 1) FlagType.number)]
        (toCamelCase "a-b")
      = updateFlagValuesCache
        [("a-b", Flag.mk "a-b" true (FlagValue.num 1) FlagType.number)] "a-b"
  ∧ updateFlagValuesCache
        [("a-b", Flag.mk "a-b" true (FlagValue.num 1) FlagType.number)] "a-b"
      = some (FlagValue.num 1) :=
  flat_view_camel_alias _ "a-b" (Flag.mk "a-b" true (FlagValue.num 1) FlagType.number)
    (by decide) (by decide) (by decide) (by decide)

/-- C2 counterexample: a fetch failure during `identify` *is* re-thrown
to the awaiter (the promise returned by `identify` rejects with it), and
it is *not* recorded in the error accessor (`getError()` still returns
the pre-existing `null`), refuting both halves of the claim. -/
theorem post_init_fetch_failure_cex :
    (identifyStep baseState [("userId", AttrValue.str "u1")]
        (.error "Failed to fetch flags: 500")).result
      = Except.error "Failed to fetch flags: 500"
  ∧ getErrorOf (identifyStep baseState [("userId", AttrValue.str "u1")]
        (.error "Failed to fetch flags: 500")).state = none := by
  constructor
  · rfl
  · rfl

/-- C2 amended: a fetch failure during `identify` or `reset` propagates
to the caller (the returned promise rejects with it); the error accessor
is left unchanged, the snapshot, flat view, status and listeners are
untouched, no listener is notified, and the initialization promise is
not re-signaled (only the user context has been updated). -/
theorem post_init_fetch_failure (s : ClientState) (u : UserContext) (e : String) :
    (identifyStep s u (.error e)).result = Except.error e
  ∧ (identifyStep s u (.error e)).state = { s with user := some u }
  ∧ (identifyStep s u (.error e)).invoked = []
  ∧ (identifyStep s u (.error e)).signals = []
  ∧ (resetStep s (.error e)).result = Except.error e
  ∧ (resetStep s (.error e)).state = { s with user := none }
  ∧ (resetStep s (.error e)).invoked = []
  ∧ (resetStep s (.error e)).signals = [] :=
  ⟨rfl, rfl, rfl, rfl, rfl, rfl, rfl, rfl⟩

/-- C5: a push event carrying a non-null mapping triggers a full
re-fetch with the current personalization context — without adopting the
payload or notifying anyone — when that context is active; with no
active context the pushed mapping is adopted directly as the snapshot
(each entry's `key` field set to its map key), the flat view is rebuilt
fresh, every listener is notified, and no re-fetch happens. -/
theorem push_event_handling (s : ClientState) (raw : List (String × Flag)) :
    (hasUserContext s.user = true →
        handleRealtimeEvent s (some raw)
          = (s, [], RealtimeAction.refetch (s.user.getD [])))
  ∧ (hasUserContext s.user = false →
        handleRealtimeEvent s (some raw)
          = ({ s with
                flags := raw.map (fun p => (p.1, { p.2 with key := p.1 }))
                flagValuesCache :=
                  updateFlagValuesCache (raw.map (fun p => (p.1, { p.2 with key := p.1 })))
                cacheRef := s.nextRef
                nextRef := s.nextRef + 1 },
              s.listeners, RealtimeAction.adopt)) := by
  constructor
  · intro h
    simp [handleRealtimeEvent, h]
  · intro h
    simp [handleRealtimeEvent, h, notifyListenersStep, updateCacheStep]

/-- C5, witnessed with a one-entry payload against a state with an
active context (re-fetch) and one without (direct adoption). -/
theorem push_event_handling_witness :
    handleRealtimeEvent userState
        (some [("x", Flag.mk "y" true (FlagValue.num 1) FlagType.number)])
      = (userState, [], RealtimeAction.refetch [("plan", AttrValue.str "pro")])
  ∧ handleRealtimeEvent baseState
        (some [("x", Flag.mk "y" true (FlagValue.num 1) FlagType.number)])
      = ({ baseState with
            flags := [("x", Flag.mk "x" true (FlagValue.num 1) FlagType.number)]
            flagValuesCache :=
              updateFlagValuesCache [("x", Flag.mk "x" true (FlagValue.num 1) FlagType.number)]
            cacheRef := 7
            nextRef := 8 },
          [5, 9], RealtimeAction.adopt) :=
  ⟨(push_event_handling userState _).1 (by decide),
    (push_event_handling baseState _).2 (by decide)⟩

/-- C6: every token splitting on '_' into at least 4 segments with first
segment "rly" parses to projectId = segment 2 and environmentKey =
segment 3; any other string makes the constructor throw
`Invalid SDK token format` synchronously (before any asynchronous work:
`mkClient` consumes no fetch outcome on this path). -/
theorem token_parsing (token : String) :
    (∀ h4 : 4 ≤ (jsSplit token '_').length,
        (jsSplit token '_').head? = some "rly" →
        parseToken token
          = some ⟨(jsSplit token '_').get ⟨1, by omega⟩,
                  (jsSplit token '_').get ⟨2, by omega⟩⟩)
  ∧ (((jsSplit token '_').length < 4 ∨ (jsSplit token '_').head? ≠ some "rly") →
        ∀ config : RolloutlyConfig, config.token = token →
          mkClient config = Except.error "Invalid SDK token format") := by
  constructor
  · intro h4 hrly
    rw [parseToken, dif_pos ⟨h4, hrly⟩]
  · intro hbad config hconfig
    have hnone : parseToken token = none := by
      rw [parseToken, dif_neg]
      intro ⟨h4, hrly⟩
      cases hbad with
      | inl h => omega
      | inr h => exact h hrly
    rw [mkClient, hconfig, hnone]

/-- C6, witnessed at a well-formed and a malformed token. -/
theorem token_parsing_witness :
    parseToken "rly_p1_prod_abcdef" = some ⟨"p1", "prod"⟩
  ∧ mkClient ⟨"rly_p1_prod", true, fun _ => none, none⟩
      = Except.error "Invalid SDK token format" :=
  ⟨((token_parsing "rly_p1_prod_abcdef").1 (by decide) (by decide)).trans (by decide),
    (token_parsing "rly_p1_prod").2 (by decide) _ rfl⟩

/-- C7: when the first fetch rejects, initialization ends in status
'error', the error accessor carries the rejection's message, and the
initialization promise is settled exactly once — with exactly that
rejection. -/
theorem first_fetch_failure (s : ClientState) (e : String) (addr : Option String) :
    (initializeStep s (.error e) addr).state.status = ClientStatus.error
  ∧ getErrorOf (initializeStep s (.error e) addr).state = some e
  ∧ (initializeStep s (.error e) addr).signals = [InitSignal.reject e]
  ∧ (initializeStep s (.error e) addr).signals.length = 1 :=
  ⟨rfl, rfl, rfl, rfl⟩

/-- C9: replacing the snapshot (successful fetch, or push adoption with
no active context) rebuilds the flat view as a fresh object — its
reference differs from the pre-update one — and invokes each currently
subscribed listener exactly once; every other operation (failed fetch,
subscribe, close, null or refetch-signal push events, and the pure read
`getFlagValues` itself) leaves the cached object and its reference
untouched, so repeated reads between replacements return the identical
reference. -/
theorem flat_view_identity_and_notification (s : ClientState)
    (newFlags : FlagMap) (raw : List (String × Flag)) (l : Nat) (e : String)
    (href : s.cacheRef < s.nextRef) (hnd : s.listeners.Nodup) :
    ((fetchFlagsStep s (.ok newFlags)).state.cacheRef ≠ s.cacheRef
      ∧ (fetchFlagsStep s (.ok newFlags)).invoked = s.listeners
      ∧ ∀ x ∈ s.listeners, (fetchFlagsStep s (.ok newFlags)).invoked.count x = 1)
  ∧ (hasUserContext s.user = false →
      (handleRealtimeEvent s (some raw)).1.cacheRef ≠ s.cacheRef
        ∧ (handleRealtimeEvent s (some raw)).2.1 = s.listeners)
  ∧ ((fetchFlagsStep s (.error e)).state.cacheRef = s.cacheRef
      ∧ (fetchFlagsStep s (.error e)).state.flagValuesCache = s.flagValuesCache
      ∧ (fetchFlagsStep s (.error e)).invoked = [])
  ∧ ((subscribeStep s l).cacheRef = s.cacheRef
      ∧ (subscribeStep s l).flagValuesCache = s.flagValuesCache)
  ∧ ((closeStep s).cacheRef = s.cacheRef
      ∧ (closeStep s).flagValuesCache = s.flagValuesCache)
  ∧ (handleRealtimeEvent s none).1.cacheRef = s.cacheRef
  ∧ (hasUserContext s.user = true →
      (handleRealtimeEvent s (some raw)).1.cacheRef = s.cacheRef)
  ∧ getFlagValuesOf s = s.flagValuesCache := by
  refine ⟨⟨?_, rfl, ?_⟩, ?_, ⟨rfl, rfl, rfl⟩, ?_, ⟨rfl, rfl⟩, rfl, ?_, rfl⟩
  · show s.nextRef ≠ s.cacheRef
    omega
  · intro x hx
    exact List.count_eq_one_of_mem hnd hx
  · intro h
    refine ⟨?_, ?_⟩
    · simp only [handleRealtimeEvent, h, Bool.false_eq_true, if_false,
        notifyListenersStep, updateCacheStep]
      omega
    · simp [handleRealtimeEvent, h, notifyListenersStep, updateCacheStep]
  · by_cases hm : l ∈ s.listeners <;> simp [subscribeStep, hm]
  · intro h
    simp [handleRealtimeEvent, h]

/-- C9, witnessed at `baseState` (live object 3 of 7, listeners 5, 9). -/
theorem flat_view_identity_and_notification_witness :
    (fetchFlagsStep baseState (.ok [])).state.cacheRef ≠ baseState.cacheRef
  ∧ ∀ x ∈ baseState.listeners, (fetchFlagsStep baseState (.ok [])).invoked.count x = 1 := by
  have h := flat_view_identity_and_notification baseState [] [] 0 "e"
    (by decide) (by decide)
  exact ⟨h.1.1, h.1.2.2⟩

/-- C10: `close()` clears the listener set and tears down the push
subscription, and changes nothing else — every read accessor (`getFlag`,
`isEnabled`, `getFlags`, `getFlagValues` including its reference,
`getStatus`, `getError`, `getUser`) answers exactly as before. -/
theorem close_frame (s : ClientState) (key : String) :
    (closeStep s).listeners = []
  ∧ (closeStep s).realtimeActive = false
  ∧ getFlagOf (closeStep s) key = getFlagOf s key
  ∧ isEnabledOf (closeStep s) key = isEnabledOf s key
  ∧ getFlagsOf (closeStep s) = getFlagsOf s
  ∧ getFlagValuesOf (closeStep s) = getFlagValuesOf s
  ∧ (closeStep s).cacheRef = s.cacheRef
  ∧ getStatusOf (closeStep s) = getStatusOf s
  ∧ getErrorOf (closeStep s) = getErrorOf s
  ∧ getUserOf (closeStep s) = getUserOf s :=
  ⟨rfl, rfl, rfl, rfl, rfl, rfl, rfl, rfl, rfl, rfl⟩

end Rolloutly
